import Mathlib

/-!
Verification of the Lima-Medic clinic booking application (`src/app.py`).

The development shallowly embeds the request handlers and pure helpers that
the specification talks about: the slot generator `generate_slots`, its
caller `get_horarios_disponibles`, the payment/finalization handler `pago`
(POST branch), the wizard step `seleccionar_hora` (POST branch) and the
status-transition handler `marcar_atendido` (the in-file fallback paths,
since the optional `utils_excel` module is absent from the repository).

Times are modelled as minutes since midnight (`Nat`); the Excel tables as
Lean lists of records; randomness (`secrets.token_hex`,
`secrets.randbelow`) as explicit entropy parameters; I/O success or failure
of the pandas persistence layer as explicit boolean parameters.
-/

/-- A Flask flash message: text plus category, as produced by
`flash(message, category)` in `app.py`. -/
structure FlashMsg where
  text : String
  category : String
deriving DecidableEq, Repr

/-- The observable HTTP outcome of a handler: a redirect to a named route
(`redirect(url_for(...))` / `redirect(request.referrer)`) or a rendered
template. -/
inductive Response where
  | redirectTo : String → Response
  | render : String → Response
deriving DecidableEq, Repr

/-- The `session["user"]` dictionary stored at login. -/
structure User where
  username : String
  nombre : String
  rol : String
  email : String
deriving DecidableEq, Repr

/-- The booking draft `session["reserva_temp"]`, accumulated across the
wizard steps.  Each field is `Option` because the corresponding dictionary
key may be absent (or set from a missing form field). -/
structure Draft where
  especialidad : Option String
  fecha : Option String
  medico_id : Option Int
  hora : Option String
deriving DecidableEq, Repr

/-- The draft value used when `session.get("reserva_temp", {})` finds no
key: an empty dictionary, i.e. every field absent. -/
def emptyDraft : Draft := ⟨none, none, none, none⟩

/-- The server-side session: the logged-in user (if any) and the booking
draft (if any). -/
structure Session where
  user : Option User
  reserva_temp : Option Draft
deriving DecidableEq, Repr

/-- A row of the appointments table `citas.xlsx`, with the eleven columns
fixed in `app.py`. -/
structure Cita where
  id : Int
  usuario : String
  nombre_paciente : String
  especialidad : Option String
  medico_id : Option Int
  medico_nombre : String
  fecha : Option String
  hora : Option String
  estado : String
  metodo_pago : String
  referencia : String
deriving DecidableEq, Repr

/-- A row of the doctors table `medicos.xlsx`.  The working-hour strings
are `Option` because the dictionary key may be absent. -/
structure Medico where
  id : Int
  username : String
  nombre : String
  especialidad : String
  start_time : Option String
  end_time : Option String
  sede : String
deriving DecidableEq, Repr

/-! ## Wall-clock time parsing and formatting

`generate_slots` calls `datetime.strptime(s, "%H:%M")` and
`cur.strftime("%H:%M")`.  We model a parsed time as minutes since
midnight. -/

/-- Value of an ASCII decimal digit character, `none` otherwise. -/
def digitVal (c : Char) : Option Nat :=
  if c.isDigit then some (c.toNat - 48) else none

/-- Greedy scan of one or two decimal digits, as the `%H` and `%M`
directives of `strptime` do; returns the value and the unconsumed
characters. -/
def takeDigits2 : List Char → Option (Nat × List Char)
  | c1 :: c2 :: rest =>
    match digitVal c1, digitVal c2 with
    | some d1, some d2 => some (d1 * 10 + d2, rest)
    | some d1, none => some (d1, c2 :: rest)
    | none, _ => none
  | [c1] => (digitVal c1).map (fun d => (d, []))
  | [] => none

/-- Models `datetime.strptime(s, "%H:%M")`: one or two digits of hour in
`0..23`, a literal colon, one or two digits of minute in `0..59`, end of
input; result in minutes since midnight.  `none` models the `ValueError`
raised on any other input. -/
def parseHM (s : String) : Option Nat :=
  match takeDigits2 s.data with
  | none => none
  | some (h, rest) =>
    match rest with
    | ':' :: rest2 =>
      match takeDigits2 rest2 with
      | none => none
      | some (m, rest3) =>
        if rest3 = [] ∧ h ≤ 23 ∧ m ≤ 59 then some (h * 60 + m) else none
    | _ => none

/-- The ASCII character of `n % 10`. -/
def decDigitChar (n : Nat) : Char := Char.ofNat (48 + n % 10)

/-- Fixed-width decimal rendering with leading zeros: `toDecList k v` is
the last `k` decimal digits of `v`, most significant first.  For
`v < 10 ^ k` this is exactly Python's `f"{v:0kd}"` padding. -/
def toDecList : Nat → Nat → List Char
  | 0, _ => []
  | k + 1, v => toDecList k (v / 10) ++ [decDigitChar (v % 10)]

/-- Two-digit zero-padded decimal, as `strftime` renders `%H` and `%M`. -/
def pad2 (n : Nat) : String := String.mk (toDecList 2 n)

/-- Models `cur.strftime("%H:%M")` on a time of `m` minutes since the
epoch of the parse: hour of day (mod 24) and minute, both zero-padded. -/
def fmtHM (m : Nat) : String := pad2 (m / 60 % 24) ++ ":" ++ pad2 (m % 60)

/-! ## Slot generator -/

/-- The `while cur + timedelta(minutes=n) <= end` loop of
`generate_slots`, with an explicit fuel argument making the recursion
structural.  The `0 < n` conjunct restricts the model to positive slot
lengths: for `n = 0` with `cur ≤ fin` the Python loop does not terminate,
and every call site passes `30`.  For `0 < n` the loop runs at most
`fin - cur` iterations, so fuel `fin + 1 - cur` (see `slotsLoop`) never
runs out. -/
def slotsLoopF : Nat → Nat → Nat → Nat → List Nat
  | 0, _, _, _ => []
  | fuel + 1, n, cur, fin =>
    if 0 < n ∧ cur + n ≤ fin then cur :: slotsLoopF fuel n (cur + n) fin else []

/-- The slot loop of `generate_slots` on parsed times, in minutes. -/
def slotsLoop (n cur fin : Nat) : List Nat := slotsLoopF (fin + 1 - cur) n cur fin

/-- `generate_slots(start_time_str, end_time_str, slot_minutes)` from
`app.py`: parse both times with `strptime`, then collect `%H:%M` strings
every `slot_minutes` minutes while the slot still fits before the end
time.  `none` models the exception propagated when either time string
fails to parse. -/
def generate_slots (start_time_str end_time_str : String) (slot_minutes : Nat) :
    Option (List String) :=
  match parseHM start_time_str, parseHM end_time_str with
  | some s, some e => some ((slotsLoop slot_minutes s e).map fmtHM)
  | _, _ => none

/-- `get_horarios_disponibles(medico)` from `app.py`: read the doctor's
working hours with defaults `"09:00"`/`"17:00"`, generate 30-minute
slots, and on any exception fall back to the hardcoded list. -/
def get_horarios_disponibles (medico : Medico) : List String :=
  match generate_slots (medico.start_time.getD "09:00") (medico.end_time.getD "17:00") 30 with
  | some slots => slots
  | none => ["09:00", "09:30", "10:00", "10:30", "11:00"]

/-! ## Payment references -/

/-- Lowercase hexadecimal digit character of `n < 16`. -/
def hexDigitChar (n : Nat) : Char :=
  if n < 10 then Char.ofNat (48 + n) else Char.ofNat (87 + n)

/-- Fixed-width hexadecimal rendering: the last `k` hex digits of `v`,
most significant first. -/
def toHexList : Nat → Nat → List Char
  | 0, _ => []
  | k + 1, v => toHexList k (v / 16) ++ [hexDigitChar (v % 16)]

/-- Models `secrets.token_hex(nbytes)`: `2 * nbytes` random lowercase hex
digits.  The random bytes are supplied as the `entropy` parameter. -/
def token_hex (nbytes entropy : Nat) : String :=
  String.mk (toHexList (2 * nbytes) (entropy % 16 ^ (2 * nbytes)))

/-- Models `f"{secrets.randbelow(10**6):06d}"`: a uniformly random value
below `10 ^ 6` (supplied as `entropy`, reduced mod `10 ^ 6`), rendered as
exactly six decimal digits with leading zeros. -/
def format06 (entropy : Nat) : String := String.mk (toDecList 6 (entropy % 10 ^ 6))

/-- ASCII hexadecimal digit test (both cases), the notion of
"hexadecimal string" used by the specification. -/
def isHexDigitChar (c : Char) : Bool :=
  c.isDigit || ('a' ≤ c && c ≤ 'f') || ('A' ≤ c && c ≤ 'F')

/-! ## Appointment finalization (`pago`, POST branch) -/

/-- The `cita` dictionary built in the POST branch of `pago`:
identifier from the request timestamp, owner from the session user,
specialty/doctor/date/time copied from the draft, doctor display name
resolved by id lookup in the doctors table (empty on failure), status
`"Pagado"` for method `"QR"` else `"Pendiente"`, and the payment
reference (`secrets.token_hex(6)` for QR, a zero-padded
`secrets.randbelow(10**6)` otherwise). -/
def pago_cita (u : User) (temp : Draft) (metodo : String) (medicos : List Medico)
    (now_ts : Int) (qr_entropy cash_entropy : Nat) : Cita :=
  let medico_nombre :=
    match temp.medico_id with
    | none => ""
    | some mid =>
      match medicos.find? (fun m => m.id == mid) with
      | some m => m.nombre
      | none => ""
  { id := now_ts
    usuario := u.username
    nombre_paciente := u.nombre
    especialidad := temp.especialidad
    medico_id := temp.medico_id
    medico_nombre := medico_nombre
    fecha := temp.fecha
    hora := temp.hora
    estado := if metodo = "QR" then "Pagado" else "Pendiente"
    metodo_pago := metodo
    referencia := if metodo = "QR" then token_hex 6 qr_entropy else format06 cash_entropy }

/-- The full observable outcome of a booking-flow handler: HTTP response,
new session, new appointments table, new in-memory fallback buffer
`citas_pendientes_mem`, and the flash messages emitted. -/
structure HandlerResult where
  response : Response
  sess : Session
  citas : List Cita
  mem : List Cita
  flash : List FlashMsg
deriving DecidableEq, Repr

/-- The POST branch of the `/pago` route.  Guards: a session user with
role `"paciente"` must exist, and the draft must exist and contain a time
(`if not temp or "hora" not in temp`); the empty-dictionary draft is the
all-`none` draft, so both failing cases redirect to `seleccionar_hora`.
`metodo` defaults to `"EFECTIVO"` (`request.form.get("metodo",
"EFECTIVO")`).  `persist_ok` tells whether `excel_append_row` on the
appointments file succeeds; on failure the record is appended to the
in-memory list `citas_pendientes_mem` instead.  Either way the draft is
popped from the session, a success flash is emitted and the user is
redirected to `citas_pendientes`. -/
def pago_post (sess : Session) (metodo_form : Option String) (medicos : List Medico)
    (now_ts : Int) (qr_entropy cash_entropy : Nat) (persist_ok : Bool)
    (citas mem : List Cita) : HandlerResult :=
  match sess.user with
  | none =>
    ⟨.redirectTo "login", sess, citas, mem,
      [⟨"Inicia sesión como paciente para pagar", "error"⟩]⟩
  | some u =>
    if u.rol ≠ "paciente" then
      ⟨.redirectTo "login", sess, citas, mem,
        [⟨"Inicia sesión como paciente para pagar", "error"⟩]⟩
    else
      match sess.reserva_temp with
      | none =>
        ⟨.redirectTo "seleccionar_hora", sess, citas, mem,
          [⟨"Selecciona hora antes de pagar", "error"⟩]⟩
      | some temp =>
        match temp.hora with
        | none =>
          ⟨.redirectTo "seleccionar_hora", sess, citas, mem,
            [⟨"Selecciona hora antes de pagar", "error"⟩]⟩
        | some _ =>
          let metodo := metodo_form.getD "EFECTIVO"
          let c := pago_cita u temp metodo medicos now_ts qr_entropy cash_entropy
          ⟨.redirectTo "citas_pendientes", ⟨sess.user, none⟩,
            (if persist_ok then citas ++ [c] else citas),
            (if persist_ok then mem else mem ++ [c]),
            [⟨"Cita registrada correctamente. Revisa tus citas pendientes.", "success"⟩]⟩

/-! ## Wizard step `seleccionar_hora` (POST branch) -/

/-- The POST branch of the `/seleccionar_hora` route.  The draft is read
with `session.get("reserva_temp", {})`; if it has no `medico_id` the
handler flashes and redirects to `seleccionar_medico` without touching
any store.  Otherwise a missing or empty `hora` form field flashes and
redirects back, and a non-empty one is stored into the draft before
redirecting to `confirmar_cita`. -/
def seleccionar_hora_post (sess : Session) (hora_form : Option String)
    (citas mem : List Cita) : HandlerResult :=
  let temp := sess.reserva_temp.getD emptyDraft
  match temp.medico_id with
  | none =>
    ⟨.redirectTo "seleccionar_medico", sess, citas, mem,
      [⟨"Selecciona un médico antes de elegir hora", "error"⟩]⟩
  | some _ =>
    match hora_form with
    | none =>
      ⟨.redirectTo "seleccionar_hora", sess, citas, mem,
        [⟨"Selecciona una hora", "error"⟩]⟩
    | some hora =>
      if hora = "" then
        ⟨.redirectTo "seleccionar_hora", sess, citas, mem,
          [⟨"Selecciona una hora", "error"⟩]⟩
      else
        ⟨.redirectTo "confirmar_cita", ⟨sess.user, some { temp with hora := some hora }⟩,
          citas, mem, []⟩

/-! ## Status transition `marcar_atendido` -/

/-- The row update `df.loc[df["id"] == cita_id, "estado"] = "Atendido"`:
every row whose `id` matches gets status `"Atendido"`, every other row
is left untouched. -/
def marcar_estado_rows (cita_id : Int) (df : List Cita) : List Cita :=
  df.map (fun c => if c.id = cita_id then { c with estado := "Atendido" } else c)

/-- The `/marcar_atendido/<cita_id>` route (fallback path, `utils_excel`
absent).  `io_ok` tells whether reading and rewriting the appointments
file succeeds (`excel_read` returning a dataframe and `to_excel` not
raising).  When the file is readable and non-empty the rows are updated
and written back and `ok = True`; otherwise the store is unchanged and
`ok = False`.  The handler always flashes (success or error text) and
redirects to the referrer, or to `index` when there is none. -/
def marcar_atendido (cita_id : Int) (io_ok : Bool) (referrer : Option String)
    (df : List Cita) : List Cita × FlashMsg × Response :=
  if io_ok ∧ df ≠ [] then
    (marcar_estado_rows cita_id df, ⟨"Cita marcada como atendida", "success"⟩,
      .redirectTo (referrer.getD "index"))
  else
    (df, ⟨"No se pudo actualizar", "error"⟩, .redirectTo (referrer.getD "index"))

/-! ## Concrete fixtures used by witnesses and counterexamples -/

/-- A concrete logged-in patient. -/
def userW : User := ⟨"ana", "Ana Pérez", "paciente", "ana@example.com"⟩

/-- A concrete completed booking draft. -/
def draftW : Draft := ⟨some "Cardiología", some "2024-05-01", some 3, some "09:30"⟩

/-- A concrete session holding `userW` and `draftW`. -/
def sessW : Session := ⟨some userW, some draftW⟩

/-- A concrete appointment with id `1`, already `"Atendido"`. -/
def citaAtendida : Cita :=
  ⟨1, "ana", "Ana Pérez", some "Cardiología", some 3, "Dr. Soto", some "2024-05-01",
    some "09:30", "Atendido", "EFECTIVO", "123456"⟩

/-- A concrete stored appointment occupying the same
(doctor, date, time) slot as `draftW`. -/
def citaDup : Cita :=
  ⟨7, "luis", "Luis Q.", some "Cardiología", some 3, "Dr. Soto", some "2024-05-01",
    some "09:30", "Pendiente", "EFECTIVO", "654321"⟩

/-! ## Helper lemmas -/

theorem slotsLoopF_head (fuel n cur fin : Nat) :
    slotsLoopF fuel n cur fin = [] ∨ (slotsLoopF fuel n cur fin).head? = some cur := by
  cases fuel with
  | zero => exact Or.inl rfl
  | succ k =>
    unfold slotsLoopF
    split
    · exact Or.inr rfl
    · exact Or.inl rfl

theorem slotsLoopF_chain (fuel : Nat) : ∀ n cur fin : Nat,
    List.Chain' (fun a b => b = a + n) (slotsLoopF fuel n cur fin) := by
  induction fuel with
  | zero => intro n cur fin; exact List.chain'_nil
  | succ k ih =>
    intro n cur fin
    unfold slotsLoopF
    split
    · refine List.chain'_cons'.mpr ⟨?_, ih n (cur + n) fin⟩
      intro y hy
      rcases slotsLoopF_head k n (cur + n) fin with h | h
      · rw [h] at hy; simp at hy
      · rw [h] at hy; simpa using hy.symm
    · exact List.chain'_nil

theorem slotsLoopF_mem (fuel : Nat) : ∀ n cur fin x : Nat,
    x ∈ slotsLoopF fuel n cur fin → x + n ≤ fin := by
  induction fuel with
  | zero => intro n cur fin x h; simp [slotsLoopF] at h
  | succ k ih =>
    intro n cur fin x h
    unfold slotsLoopF at h
    split at h
    case isTrue hc =>
      rcases List.mem_cons.mp h with rfl | h2
      · exact hc.2
      · exact ih n (cur + n) fin x h2
    case isFalse => simp at h

theorem slotsLoop_ne_nil (n cur fin : Nat) (hn : 0 < n) :
    slotsLoop n cur fin ≠ [] ↔ cur + n ≤ fin := by
  unfold slotsLoop
  constructor
  · intro h
    by_contra hc
    cases hfuel : fin + 1 - cur with
    | zero => rw [hfuel] at h; exact h rfl
    | succ k =>
      rw [hfuel] at h
      unfold slotsLoopF at h
      rw [if_neg (fun hcc => hc hcc.2)] at h
      exact h rfl
  · intro h
    have hfuel : fin + 1 - cur = (fin - cur) + 1 := by omega
    rw [hfuel]
    unfold slotsLoopF
    rw [if_pos ⟨hn, h⟩]
    simp

theorem slotsLoop_head (n cur fin : Nat) (h : slotsLoop n cur fin ≠ []) :
    (slotsLoop n cur fin).head? = some cur := by
  rcases slotsLoopF_head (fin + 1 - cur) n cur fin with h2 | h2
  · exact absurd h2 h
  · exact h2

theorem toHexList_length (k : Nat) : ∀ v, (toHexList k v).length = k := by
  induction k with
  | zero => intro v; rfl
  | succ m ih => intro v; simp [toHexList, ih]

theorem isHex_hexDigitChar (m : Nat) (h : m < 16) : isHexDigitChar (hexDigitChar m) = true := by
  interval_cases m <;> decide

theorem toHexList_hex (k : Nat) : ∀ v c, c ∈ toHexList k v → isHexDigitChar c = true := by
  induction k with
  | zero => intro v c h; simp [toHexList] at h
  | succ m ih =>
    intro v c h
    simp only [toHexList, List.mem_append, List.mem_singleton] at h
    rcases h with h | h
    · exact ih _ _ h
    · subst h; exact isHex_hexDigitChar _ (Nat.mod_lt _ (by norm_num))

theorem isDigit_decDigitChar (v : Nat) : (decDigitChar v).isDigit = true := by
  have h : v % 10 < 10 := Nat.mod_lt _ (by norm_num)
  unfold decDigitChar
  generalize hm : v % 10 = m at h ⊢
  interval_cases m <;> decide

theorem toDecList_length (k : Nat) : ∀ v, (toDecList k v).length = k := by
  induction k with
  | zero => intro v; rfl
  | succ m ih => intro v; simp [toDecList, ih]

theorem toDecList_digit (k : Nat) : ∀ v c, c ∈ toDecList k v → c.isDigit = true := by
  induction k with
  | zero => intro v c h; simp [toDecList] at h
  | succ m ih =>
    intro v c h
    simp only [toDecList, List.mem_append, List.mem_singleton] at h
    rcases h with h | h
    · exact ih _ _ h
    · subst h; exact isDigit_decDigitChar _

theorem String_length_mk (l : List Char) : (String.mk l).length = l.length := rfl

theorem token_hex_spec (nbytes entropy : Nat) :
    (token_hex nbytes entropy).length = 2 * nbytes ∧
    (token_hex nbytes entropy).data.all isHexDigitChar = true := by
  unfold token_hex
  refine ⟨?_, ?_⟩
  · rw [String_length_mk]
    exact toHexList_length (2 * nbytes) _
  · rw [List.all_eq_true]
    exact fun c hc => toHexList_hex (2 * nbytes) _ c hc

theorem format06_spec (entropy : Nat) :
    (format06 entropy).length = 6 ∧
    (format06 entropy).data.all Char.isDigit = true := by
  unfold format06
  refine ⟨?_, ?_⟩
  · rw [String_length_mk]
    exact toDecList_length 6 _
  · rw [List.all_eq_true]
    exact fun c hc => toDecList_digit 6 _ c hc

theorem marcar_estado_rows_idem (cita_id : Int) (df : List Cita) :
    marcar_estado_rows cita_id (marcar_estado_rows cita_id df) = marcar_estado_rows cita_id df := by
  unfold marcar_estado_rows
  rw [List.map_map]
  apply List.map_congr_left
  intro c _
  by_cases h : c.id = cita_id <;> simp [Function.comp, h]

theorem marcar_estado_rows_ne_nil (cita_id : Int) (df : List Cita) (h : df ≠ []) :
    marcar_estado_rows cita_id df ≠ [] := by
  unfold marcar_estado_rows
  simpa using h

theorem marcar_estado_rows_no_match (cita_id : Int) (df : List Cita)
    (h : ∀ c ∈ df, c.id ≠ cita_id) : marcar_estado_rows cita_id df = df := by
  induction df with
  | nil => rfl
  | cons c rest ih =>
    simp only [marcar_estado_rows, List.map_cons]
    rw [if_neg (h c (List.mem_cons_self c rest))]
    have := ih (fun x hx => h x (List.mem_cons_of_mem c hx))
    simpa [marcar_estado_rows] using this

/-! ## Claim theorems -/

/-- C2 counterexample: for the valid pair 09:00 < 09:10 and slot length
30, `generate_slots` returns the empty sequence, which has no first
element, so the returned sequence's first element does not equal the
start time as the claim requires. -/
theorem generate_slots_no_first_slot :
    (generate_slots "09:00" "09:10" 30).map List.head? = some none ∧
    (generate_slots "09:00" "09:10" 30).map List.head? ≠ some (some "09:00") := by
  constructor <;> decide

/-- C2 (amended): for valid "HH:MM" times with start < end and positive
slot length n, `generate_slots` succeeds and returns the slot sequence in
which consecutive slots are exactly n minutes apart, every slot plus n
fits before end, the sequence is non-empty exactly when start + n ≤ end,
and when non-empty its first element is the start time; in particular for
start "09:00", end "10:30", slot 30 it returns exactly
["09:00", "09:30", "10:00"]. -/
theorem generate_slots_spec (s e : String) (sv ev n : Nat)
    (hs : parseHM s = some sv) (he : parseHM e = some ev)
    (hn : 0 < n) (hlt : sv < ev) :
    generate_slots s e n = some ((slotsLoop n sv ev).map fmtHM) ∧
    List.Chain' (fun a b => b = a + n) (slotsLoop n sv ev) ∧
    (∀ x ∈ slotsLoop n sv ev, x + n ≤ ev) ∧
    (slotsLoop n sv ev ≠ [] ↔ sv + n ≤ ev) ∧
    (slotsLoop n sv ev ≠ [] → (slotsLoop n sv ev).head? = some sv) ∧
    generate_slots "09:00" "10:30" 30 = some ["09:00", "09:30", "10:00"] := by
  refine ⟨?_, slotsLoopF_chain _ n sv ev, fun x hx => slotsLoopF_mem _ n sv ev x hx,
    slotsLoop_ne_nil n sv ev hn, slotsLoop_head n sv ev, by decide⟩
  simp [generate_slots, hs, he]

theorem generate_slots_spec_witness :
    parseHM "09:00" = some 540 ∧ parseHM "10:30" = some 630 ∧ (0 : Nat) < 30 ∧ 540 < 630 ∧
    generate_slots "09:00" "10:30" 30 = some ((slotsLoop 30 540 630).map fmtHM) := by
  refine ⟨by decide, by decide, by decide, by decide, ?_⟩
  exact (generate_slots_spec "09:00" "10:30" 540 630 30 (by decide) (by decide)
    (by decide) (by decide)).1

/-- C7: for valid "HH:MM" times with start ≥ end (and a positive slot
length, the only case in which the Python loop terminates),
`generate_slots` returns the empty sequence. -/
theorem generate_slots_empty_start_ge_end (s e : String) (sv ev n : Nat)
    (hs : parseHM s = some sv) (he : parseHM e = some ev)
    (hn : 0 < n) (hge : ev ≤ sv) :
    generate_slots s e n = some [] := by
  have h : slotsLoop n sv ev = [] := by
    by_contra hne
    have := (slotsLoop_ne_nil n sv ev hn).mp hne
    omega
  simp [generate_slots, hs, he, h]

theorem generate_slots_empty_start_ge_end_witness :
    parseHM "10:00" = some 600 ∧ parseHM "09:00" = some 540 ∧ (540 : Nat) ≤ 600 ∧
    generate_slots "10:00" "09:00" 30 = some [] := by
  refine ⟨by decide, by decide, by decide, ?_⟩
  exact generate_slots_empty_start_ge_end "10:00" "09:00" 600 540 30 (by decide) (by decide)
    (by decide) (by decide)

/-- C8: when a doctor's start or end time string cannot be parsed as
"HH:MM", `generate_slots` fails, and `get_horarios_disponibles`
substitutes the hardcoded default slot list instead of propagating the
error. -/
theorem get_horarios_default_on_parse_failure (medico : Medico)
    (h : parseHM (medico.start_time.getD "09:00") = none ∨
         parseHM (medico.end_time.getD "17:00") = none) :
    generate_slots (medico.start_time.getD "09:00") (medico.end_time.getD "17:00") 30 = none ∧
    get_horarios_disponibles medico = ["09:00", "09:30", "10:00", "10:30", "11:00"] := by
  have hg : generate_slots (medico.start_time.getD "09:00")
      (medico.end_time.getD "17:00") 30 = none := by
    rcases h with h | h
    · simp [generate_slots, h]
    · cases hs : parseHM (medico.start_time.getD "09:00") <;> simp [generate_slots, hs, h]
  exact ⟨hg, by simp [get_horarios_disponibles, hg]⟩

theorem get_horarios_default_on_parse_failure_witness :
    parseHM "mañana" = none ∧
    get_horarios_disponibles ⟨3, "dr", "Dr. Soto", "Cardiología", some "mañana", some "17:00", "Lima"⟩
      = ["09:00", "09:30", "10:00", "10:30", "11:00"] := by
  refine ⟨by decide, ?_⟩
  exact (get_horarios_default_on_parse_failure
    ⟨3, "dr", "Dr. Soto", "Cardiología", some "mañana", some "17:00", "Lima"⟩
    (Or.inl (by decide))).2

/-- C1: finalizing with method "QR" yields status "Pagado" and a
non-empty 12-character lowercase hexadecimal reference; any other method
yields status "Pendiente" and a 6-digit numeric reference; the resulting
record is the one appended by `pago_post` (to the store on persistence
success, to the in-memory buffer on failure). -/
theorem pago_reference_spec (sess : Session) (u : User) (temp : Draft) (h0 : String)
    (metodo_form : Option String) (medicos : List Medico) (now_ts : Int)
    (qr_entropy cash_entropy : Nat) (persist_ok : Bool) (citas mem : List Cita)
    (hu : sess.user = some u) (hrol : u.rol = "paciente")
    (ht : sess.reserva_temp = some temp) (hh : temp.hora = some h0) :
    (pago_post sess metodo_form medicos now_ts qr_entropy cash_entropy persist_ok citas mem).citas
      = (if persist_ok then
          citas ++ [pago_cita u temp (metodo_form.getD "EFECTIVO") medicos now_ts qr_entropy cash_entropy]
         else citas) ∧
    (pago_post sess metodo_form medicos now_ts qr_entropy cash_entropy persist_ok citas mem).mem
      = (if persist_ok then mem
         else mem ++ [pago_cita u temp (metodo_form.getD "EFECTIVO") medicos now_ts qr_entropy cash_entropy]) ∧
    (metodo_form.getD "EFECTIVO" = "QR" →
      (pago_cita u temp (metodo_form.getD "EFECTIVO") medicos now_ts qr_entropy cash_entropy).estado
          = "Pagado" ∧
      (pago_cita u temp (metodo_form.getD "EFECTIVO") medicos now_ts qr_entropy cash_entropy).referencia
          ≠ "" ∧
      (pago_cita u temp (metodo_form.getD "EFECTIVO") medicos now_ts qr_entropy cash_entropy).referencia.length
          = 12 ∧
      (pago_cita u temp (metodo_form.getD "EFECTIVO") medicos now_ts qr_entropy cash_entropy).referencia.data.all
          isHexDigitChar = true) ∧
    (metodo_form.getD "EFECTIVO" ≠ "QR" →
      (pago_cita u temp (metodo_form.getD "EFECTIVO") medicos now_ts qr_entropy cash_entropy).estado
          = "Pendiente" ∧
      (pago_cita u temp (metodo_form.getD "EFECTIVO") medicos now_ts qr_entropy cash_entropy).referencia.length
          = 6 ∧
      (pago_cita u temp (metodo_form.getD "EFECTIVO") medicos now_ts qr_entropy cash_entropy).referencia.data.all
          Char.isDigit = true) := by
  refine ⟨?_, ?_, ?_, ?_⟩
  · simp [pago_post, hu, hrol, ht, hh]
  · simp [pago_post, hu, hrol, ht, hh]
  · intro hm
    have hlen := (token_hex_spec 6 qr_entropy).1
    refine ⟨by simp [pago_cita, hm], ?_, ?_, ?_⟩
    · intro hre
      simp only [pago_cita, hm, if_pos] at hre
      rw [hre] at hlen
      simp at hlen
    · simpa [pago_cita, hm] using hlen
    · simpa [pago_cita, hm] using (token_hex_spec 6 qr_entropy).2
  · intro hm
    refine ⟨by simp [pago_cita, hm], ?_, ?_⟩
    · simpa [pago_cita, hm] using (format06_spec cash_entropy).1
    · simpa [pago_cita, hm] using (format06_spec cash_entropy).2

theorem pago_reference_spec_witness :
    sessW.user = some userW ∧ userW.rol = "paciente" ∧
    sessW.reserva_temp = some draftW ∧ draftW.hora = some "09:30" ∧
    ((Option.getD (some "QR") "EFECTIVO" = "QR" →
      (pago_cita userW draftW (Option.getD (some "QR") "EFECTIVO") [] 999 255 0).estado = "Pagado" ∧
      (pago_cita userW draftW (Option.getD (some "QR") "EFECTIVO") [] 999 255 0).referencia ≠ "" ∧
      (pago_cita userW draftW (Option.getD (some "QR") "EFECTIVO") [] 999 255 0).referencia.length = 12 ∧
      (pago_cita userW draftW (Option.getD (some "QR") "EFECTIVO") [] 999 255 0).referencia.data.all
        isHexDigitChar = true)) := by
  refine ⟨rfl, rfl, rfl, rfl, ?_⟩
  exact (pago_reference_spec sessW userW draftW "09:30" (some "QR") [] 999 255 0 true [] []
    rfl rfl rfl rfl).2.2.1

/-- C6: when persisting the finalized appointment fails, the record is
appended to the in-memory buffer `citas_pendientes_mem` instead, the
appointments store is untouched, the draft is cleared from the session, a
success flash is shown, the user is redirected to `citas_pendientes`, and
every record previously in the buffer is still there. -/
theorem pago_persist_failure_buffers (sess : Session) (u : User) (temp : Draft) (h0 : String)
    (metodo_form : Option String) (medicos : List Medico) (now_ts : Int)
    (qr_entropy cash_entropy : Nat) (citas mem : List Cita)
    (hu : sess.user = some u) (hrol : u.rol = "paciente")
    (ht : sess.reserva_temp = some temp) (hh : temp.hora = some h0) :
    (pago_post sess metodo_form medicos now_ts qr_entropy cash_entropy false citas mem).mem
      = mem ++ [pago_cita u temp (metodo_form.getD "EFECTIVO") medicos now_ts qr_entropy cash_entropy] ∧
    (pago_post sess metodo_form medicos now_ts qr_entropy cash_entropy false citas mem).citas
      = citas ∧
    (pago_post sess metodo_form medicos now_ts qr_entropy cash_entropy false citas mem).sess.reserva_temp
      = none ∧
    (pago_post sess metodo_form medicos now_ts qr_entropy cash_entropy false citas mem).flash
      = [⟨"Cita registrada correctamente. Revisa tus citas pendientes.", "success"⟩] ∧
    (pago_post sess metodo_form medicos now_ts qr_entropy cash_entropy false citas mem).response
      = .redirectTo "citas_pendientes" ∧
    (∀ c ∈ mem,
      c ∈ (pago_post sess metodo_form medicos now_ts qr_entropy cash_entropy false citas mem).mem) := by
  have hmem : (pago_post sess metodo_form medicos now_ts qr_entropy cash_entropy false citas mem).mem
      = mem ++ [pago_cita u temp (metodo_form.getD "EFECTIVO") medicos now_ts qr_entropy cash_entropy] := by
    simp [pago_post, hu, hrol, ht, hh]
  refine ⟨hmem, ?_, ?_, ?_, ?_, ?_⟩
  · simp [pago_post, hu, hrol, ht, hh]
  · simp [pago_post, hu, hrol, ht, hh]
  · simp [pago_post, hu, hrol, ht, hh]
  · simp [pago_post, hu, hrol, ht, hh]
  · intro c hc
    rw [hmem]
    exact List.mem_append_left _ hc

theorem pago_persist_failure_buffers_witness :
    (pago_post sessW (some "EFECTIVO") [] 999 0 41 false [] [citaDup]).mem
      = [citaDup] ++ [pago_cita userW draftW (Option.getD (some "EFECTIVO") "EFECTIVO") [] 999 0 41] ∧
    (pago_post sessW (some "EFECTIVO") [] 999 0 41 false [] [citaDup]).sess.reserva_temp = none := by
  have h := pago_persist_failure_buffers sessW userW draftW "09:30" (some "EFECTIVO") [] 999 0 41
    [] [citaDup] rfl rfl rfl rfl
  exact ⟨h.1, h.2.2.1⟩

/-- C9: appointment finalization performs no availability check: for
every appointments store, in particular one already holding the same
(doctor, date, time) triple, a successful persist appends exactly one new
row, so the store grows by exactly one record and the in-memory buffer is
untouched. -/
theorem pago_append_no_slot_check (sess : Session) (u : User) (temp : Draft) (h0 : String)
    (metodo_form : Option String) (medicos : List Medico) (now_ts : Int)
    (qr_entropy cash_entropy : Nat) (citas mem : List Cita)
    (hu : sess.user = some u) (hrol : u.rol = "paciente")
    (ht : sess.reserva_temp = some temp) (hh : temp.hora = some h0) :
    (pago_post sess metodo_form medicos now_ts qr_entropy cash_entropy true citas mem).citas
      = citas ++ [pago_cita u temp (metodo_form.getD "EFECTIVO") medicos now_ts qr_entropy cash_entropy] ∧
    (pago_post sess metodo_form medicos now_ts qr_entropy cash_entropy true citas mem).citas.length
      = citas.length + 1 ∧
    (pago_post sess metodo_form medicos now_ts qr_entropy cash_entropy true citas mem).mem = mem := by
  have hc : (pago_post sess metodo_form medicos now_ts qr_entropy cash_entropy true citas mem).citas
      = citas ++ [pago_cita u temp (metodo_form.getD "EFECTIVO") medicos now_ts qr_entropy cash_entropy] := by
    simp [pago_post, hu, hrol, ht, hh]
  refine ⟨hc, ?_, ?_⟩
  · rw [hc]; simp
  · simp [pago_post, hu, hrol, ht, hh]

theorem pago_append_no_slot_check_witness :
    citaDup.medico_id = draftW.medico_id ∧ citaDup.fecha = draftW.fecha ∧
    citaDup.hora = draftW.hora ∧
    (pago_post sessW (some "EFECTIVO") [] 999 0 41 true [citaDup] []).citas.length = 1 + 1 := by
  refine ⟨by decide, by decide, by decide, ?_⟩
  have h := pago_append_no_slot_check sessW userW draftW "09:30" (some "EFECTIVO") [] 999 0 41
    [citaDup] [] rfl rfl rfl rfl
  simpa using h.2.1

/-- C3: submitting the time-selection step when the session draft has no
chosen doctor flashes a warning and redirects to the doctor-selection
step, leaving the session, the appointments store and the in-memory
buffer exactly as they were — no (partial) appointment is created. -/
theorem seleccionar_hora_requiere_medico (sess : Session) (hora_form : Option String)
    (citas mem : List Cita)
    (h : (sess.reserva_temp.getD emptyDraft).medico_id = none) :
    seleccionar_hora_post sess hora_form citas mem =
      ⟨.redirectTo "seleccionar_medico", sess, citas, mem,
        [⟨"Selecciona un médico antes de elegir hora", "error"⟩]⟩ := by
  simp [seleccionar_hora_post, h]

theorem seleccionar_hora_requiere_medico_witness :
    ((Session.mk (some userW) none).reserva_temp.getD emptyDraft).medico_id = none ∧
    seleccionar_hora_post ⟨some userW, none⟩ (some "09:30") [citaDup] [] =
      ⟨.redirectTo "seleccionar_medico", ⟨some userW, none⟩, [citaDup], [],
        [⟨"Selecciona un médico antes de elegir hora", "error"⟩]⟩ := by
  exact ⟨rfl, seleccionar_hora_requiere_medico ⟨some userW, none⟩ (some "09:30") [citaDup] [] rfl⟩

/-- C4: `marcar_atendido` is idempotent: on a store containing the
appointment, already in status "Atendido", the handler reports success
(no error), and applying the handler to its own output store yields
exactly the same store, flash and redirect as applying it once. -/
theorem marcar_atendido_idempotente (cita_id : Int) (io_ok : Bool) (referrer : Option String)
    (df : List Cita) (c : Cita) (hc : c ∈ df) (hid : c.id = cita_id)
    (hst : c.estado = "Atendido") (hio : io_ok = true) :
    (marcar_atendido cita_id io_ok referrer df).2.1 = ⟨"Cita marcada como atendida", "success"⟩ ∧
    marcar_atendido cita_id io_ok referrer ((marcar_atendido cita_id io_ok referrer df).1) =
      marcar_atendido cita_id io_ok referrer df := by
  subst hio
  have hne : df ≠ [] := by rintro rfl; simp at hc
  constructor
  · simp [marcar_atendido, hne]
  · simp [marcar_atendido, hne, marcar_estado_rows_ne_nil cita_id df hne,
      marcar_estado_rows_idem]

theorem marcar_atendido_idempotente_witness :
    citaAtendida ∈ [citaAtendida] ∧ citaAtendida.id = 1 ∧ citaAtendida.estado = "Atendido" ∧
    marcar_atendido 1 true none ((marcar_atendido 1 true none [citaAtendida]).1) =
      marcar_atendido 1 true none [citaAtendida] := by
  refine ⟨by decide, by decide, by decide, ?_⟩
  exact (marcar_atendido_idempotente 1 true none [citaAtendida] citaAtendida
    (by decide) (by decide) (by decide) rfl).2

/-- C5 counterexample: with a non-empty store whose only row has id 1,
invoking `marcar_atendido` on the absent id 2 flashes the success
message, not an error. -/
theorem marcar_atendido_unknown_id_success_flash :
    citaAtendida.id ≠ 2 ∧
    (marcar_atendido 2 true none [citaAtendida]).2.1 =
      ⟨"Cita marcada como atendida", "success"⟩ := by
  constructor <;> decide

/-- C5 (amended): invoking `marcar_atendido` with an id absent from the
store always redirects and leaves every row unchanged; the flash is the
error message only when the store is unreadable or empty, while on a
non-empty readable store the handler flashes the success message even
though no row matched. -/
theorem marcar_atendido_unknown_id_spec (cita_id : Int) (io_ok : Bool)
    (referrer : Option String) (df : List Cita) (h : ∀ c ∈ df, c.id ≠ cita_id) :
    (marcar_atendido cita_id io_ok referrer df).1 = df ∧
    (¬ (io_ok = true ∧ df ≠ []) →
      (marcar_atendido cita_id io_ok referrer df).2.1 = ⟨"No se pudo actualizar", "error"⟩) ∧
    (io_ok = true → df ≠ [] →
      (marcar_atendido cita_id io_ok referrer df).2.1 =
        ⟨"Cita marcada como atendida", "success"⟩) ∧
    (marcar_atendido cita_id io_ok referrer df).2.2 =
      .redirectTo (referrer.getD "index") := by
  by_cases hc : io_ok = true ∧ df ≠ []
  · refine ⟨?_, fun hn => absurd hc hn, fun _ _ => ?_, ?_⟩
    · simp [marcar_atendido, hc.1, hc.2, marcar_estado_rows_no_match cita_id df h]
    · simp [marcar_atendido, hc.1, hc.2]
    · simp [marcar_atendido, hc.1, hc.2]
  · refine ⟨?_, fun _ => ?_, fun h1 h2 => absurd ⟨h1, h2⟩ hc, ?_⟩
    · simp [marcar_atendido, hc]
    · simp [marcar_atendido, hc]
    · simp [marcar_atendido, hc]

theorem marcar_atendido_unknown_id_spec_witness :
    citaAtendida.id ≠ 2 ∧
    (marcar_atendido 2 true none [citaAtendida]).1 = [citaAtendida] ∧
    (marcar_atendido 2 true none [citaAtendida]).2.1 =
      ⟨"Cita marcada como atendida", "success"⟩ := by
  have h := marcar_atendido_unknown_id_spec 2 true none [citaAtendida]
    (by intro c hc; rw [List.mem_singleton] at hc; subst hc; decide)
  exact ⟨by decide, h.1, h.2.2.1 rfl (by simp)⟩

/-- C10: the fallback row update of `marcar_atendido` is a frame-exact
map: the output table has the same rows in the same order, each row keeps
every field except `estado`, and `estado` becomes "Atendido" exactly on
the rows whose id matches, staying unchanged on all others. -/
theorem marcar_estado_rows_frame (cita_id : Int) (df : List Cita) :
    List.Forall₂ (fun c c2 =>
      c2.id = c.id ∧ c2.usuario = c.usuario ∧ c2.nombre_paciente = c.nombre_paciente ∧
      c2.especialidad = c.especialidad ∧ c2.medico_id = c.medico_id ∧
      c2.medico_nombre = c.medico_nombre ∧ c2.fecha = c.fecha ∧ c2.hora = c.hora ∧
      c2.metodo_pago = c.metodo_pago ∧ c2.referencia = c.referencia ∧
      c2.estado = (if c.id = cita_id then "Atendido" else c.estado))
      df (marcar_estado_rows cita_id df) := by
  induction df with
  | nil => exact List.Forall₂.nil
  | cons c rest ih =>
    simp only [marcar_estado_rows, List.map_cons] at ih ⊢
    refine List.Forall₂.cons ?_ ih
    by_cases h : c.id = cita_id <;> simp [h]
